import Mathlib

/-!
# vid-prepper: augmentation chain engine and metadata validator, shallow embedding

The repository ships tests (`tests/test_augmentor.py`, `tests/test_metadata.py`)
and examples for a `VideoAugmentor` (frame-wise tensor augmentation with
batch/time dimension bridging) and a `Metadata` ffprobe wrapper.  The module
sources `vid_prepper/augmentor.py` and `vid_prepper/metadata.py` are not part
of the source tree available here, so the definitions below are modelled from
the specification's description of the augmentation chain engine and from the
behaviour pinned down by the test suite (error message texts, filter check
names, shape contracts).  Pixel values are modelled as rationals; randomness is
an explicit seeded generator threaded through the randomized transforms.
-/

namespace VidPrepper

/-- View an `Except` as a sum, for deciding equality. -/
def exceptToSum : Except ε α → ε ⊕ α
  | .error e => .inl e
  | .ok a => .inr a

instance {ε α : Type} [DecidableEq ε] [DecidableEq α] :
    DecidableEq (Except ε α) := fun x y =>
  decidable_of_iff (exceptToSum x = exceptToSum y)
    (by cases x <;> cases y <;> simp [exceptToSum])

/-- Modelled from the spec: the "explicitly owned, optionally seeded
random-source object" that randomized transforms (random crop, coarse dropout)
draw from.  A linear congruential generator over `Nat`. -/
structure Rng where
  seed : Nat
deriving DecidableEq, Repr

/-- Draw one pseudo-random natural and the successor generator state. -/
def Rng.next (g : Rng) : Nat × Rng :=
  let s := (g.seed * 1103515245 + 12345) % 2147483648
  (s, ⟨s⟩)

/-- Advance the generator `n` times. -/
def Rng.skip (g : Rng) : Nat → Rng
  | 0 => g
  | n + 1 => (g.next.2).skip n

/-- A channel: H rows of W rational pixel values. -/
abbrev Chan := List (List Rat)

/-- A frame: C channels. -/
abbrev Frame := List Chan

/-- Modelled from the spec: a Frame batch, "a 4-dimensional numeric array of
shape (N, C, H, W) — N independent frames". -/
abbrev FrameBatch := List Frame

/-- A channel has spatial dimensions H × W. -/
def Chan.hasDims (H W : Nat) (c : Chan) : Prop :=
  c.length = H ∧ ∀ r ∈ c, r.length = W

instance (H W : Nat) (c : Chan) : Decidable (Chan.hasDims H W c) := by
  unfold Chan.hasDims; infer_instance

/-- A frame has C channels, each H × W. -/
def Frame.hasDims (C H W : Nat) (f : Frame) : Prop :=
  f.length = C ∧ ∀ c ∈ f, Chan.hasDims H W c

instance (C H W : Nat) (f : Frame) : Decidable (Frame.hasDims C H W f) := by
  unfold Frame.hasDims; infer_instance

/-- Modelled from the spec: a video tensor is "either (T, C, H, W) — a single
video's T frames — or (B, T, C, H, W) — a batch of B videos". -/
inductive Video where
  | v4 : List Frame → Video
  | v5 : List (List Frame) → Video
deriving DecidableEq, Repr

/-- Shape descriptor captured by `flatten` for later restoration. -/
inductive VShape where
  | s4 : Nat → Nat → Nat → Nat → VShape
  | s5 : Nat → Nat → Nat → Nat → Nat → VShape
deriving DecidableEq, Repr

/-- Channel count read off the first frame of a frame list. -/
def framesC (fs : List Frame) : Nat := (fs.head?.getD []).length

/-- Height read off the first channel of the first frame. -/
def framesH (fs : List Frame) : Nat := ((fs.head?.getD []).head?.getD []).length

/-- Width read off the first row of the first channel of the first frame. -/
def framesW (fs : List Frame) : Nat :=
  (((fs.head?.getD []).head?.getD []).head?.getD []).length

/-- The shape of a video tensor, dimensions read off its leading entries. -/
def Video.shape : Video → VShape
  | .v4 fs => .s4 fs.length (framesC fs) (framesH fs) (framesW fs)
  | .v5 vids =>
      .s5 vids.length (vids.head?.getD []).length (framesC (vids.head?.getD []))
        (framesH (vids.head?.getD [])) (framesW (vids.head?.getD []))

/-- Validity (rectangularity): every frame of the tensor has the dimensions
announced by `Video.shape`; for rank 5 additionally every video has the same
number of frames. -/
def Video.valid : Video → Prop
  | .v4 fs => ∀ f ∈ fs, Frame.hasDims (framesC fs) (framesH fs) (framesW fs) f
  | .v5 vids =>
      ∀ vfs ∈ vids, vfs.length = (vids.head?.getD []).length ∧
        ∀ f ∈ vfs, Frame.hasDims (framesC (vids.head?.getD []))
          (framesH (vids.head?.getD [])) (framesW (vids.head?.getD [])) f

instance (v : Video) : Decidable v.valid := by
  cases v <;> (unfold Video.valid; infer_instance)

/-- Modelled from the spec: `flatten(video)` — "given a tensor of rank 4
(T,C,H,W) or rank 5 (B,T,C,H,W), returns a rank-4 Frame batch (N,C,H,W) with
N = T or B·T, plus the original shape for later restoration"
(the repository's `VideoAugmentor._merge_batch_time`). -/
def flatten : Video → FrameBatch × VShape
  | .v4 fs => (fs, (Video.v4 fs).shape)
  | .v5 vids => (vids.flatten, (Video.v5 vids).shape)

/-- Split a list into `B` consecutive chunks of length `T`. -/
def chunksB : Nat → Nat → List α → List (List α)
  | 0, _, _ => []
  | b + 1, T, l => l.take T :: chunksB b T (l.drop T)

/-- Modelled from the spec: `restore(frames, original_shape)` — returns a
tensor of the original rank, reconstructing B and T from the original shape
when rank was 5, and "fails with a ShapeError if frames' leading dimension N
is inconsistent with the expected B·T or T derived from the original shape"
(the repository's `VideoAugmentor._unmerge_batch_time`). -/
def restore (fb : FrameBatch) (sh : VShape) : Except String Video :=
  match sh with
  | .s4 T _ _ _ =>
      if fb.length = T then .ok (.v4 fb)
      else .error "ShapeError: frame count inconsistent with original shape"
  | .s5 B T _ _ _ =>
      if fb.length = B * T then .ok (.v5 (chunksB B T fb))
      else .error "ShapeError: frame count inconsistent with original shape"

/-- Clamp a pixel value to the nominal intensity range [0,1]. -/
def clamp01 (x : Rat) : Rat := max 0 (min 1 x)

/-- Crop a frame to rows [top, top+h) and columns [left, left+w). -/
def cropFrame (top left h w : Nat) (f : Frame) : Frame :=
  f.map fun ch => ((ch.drop top).take h).map fun r => (r.drop left).take w

/-- Mirror a frame along the width axis (`horizontal := true`) or the height
axis (`horizontal := false`). -/
def flipFrame (horizontal : Bool) (f : Frame) : Frame :=
  if horizontal then f.map fun ch => ch.map List.reverse
  else f.map fun ch => ch.reverse

/-- Modelled from the spec: symmetric padding of a channel by `ph` rows and
`pw` columns; the spec leaves the fill open ("border-replicate or zero-fill
(document choice)"), zero-fill is the choice documented here. -/
def padChan (ph pw : Nat) (ch : Chan) : Chan :=
  let w' := (ch.head?.getD []).length + 2 * pw
  let rows := ch.map fun r => List.replicate pw 0 ++ r ++ List.replicate pw 0
  List.replicate ph (List.replicate w' (0 : Rat)) ++ rows ++
    List.replicate ph (List.replicate w' (0 : Rat))

/-- Pad every channel of a frame symmetrically with zeros. -/
def padFrame (ph pw : Nat) (f : Frame) : Frame := f.map (padChan ph pw)

/-- Modelled from the spec: brightness — "additive or multiplicative
adjustment to pixel intensity, clamped to valid range after adjustment";
additive is the choice documented here. -/
def brightnessFrame (amount : Rat) (f : Frame) : Frame :=
  f.map fun ch => ch.map fun r => r.map fun x => clamp01 (x + amount)

/-- Mean intensity of a frame over all channels and pixels
(0 for an empty frame). -/
def frameMean (f : Frame) : Rat :=
  let total := (f.map fun ch => (ch.map List.sum).sum).sum
  let count := (f.map fun ch => (ch.map List.length).sum).sum
  total / (count : Rat)

/-- Contrast: scales per-frame deviation from the per-frame mean intensity by
(1+amount), clamped. -/
def contrastFrame (amount : Rat) (f : Frame) : Frame :=
  let mu := frameMean f
  f.map fun ch => ch.map fun r => r.map fun x =>
    clamp01 ((1 + amount) * (x - mu) + mu)

/-- Grayscale value at pixel (i, j) of a frame: luma-weighted combination of
the first three channels. -/
def grayAt (f : Frame) (i j : Nat) : Rat :=
  let px := fun (c : Nat) => ((((f.getD c []).getD i [])).getD j 0)
  (299 / 1000) * px 0 + (587 / 1000) * px 1 + (114 / 1000) * px 2

/-- Saturation: interpolates each frame between itself and its grayscale
equivalent by factor amount, clamped. -/
def saturationFrame (amount : Rat) (f : Frame) : Frame :=
  f.map fun ch => ch.mapIdx fun i r => r.mapIdx fun j x =>
    clamp01 ((1 - amount) * x + amount * grayAt f i j)

/-- Color adjust: scales channels 0, 1, 2 by the red, green and blue
multipliers respectively, clamped; further channels are left unchanged. -/
def colorAdjustFrame (red green blue : Rat) (f : Frame) : Frame :=
  f.mapIdx fun c ch =>
    let m := if c = 0 then red else if c = 1 then green else
             if c = 2 then blue else 1
    ch.map fun r => r.map fun x => clamp01 (m * x)

/-- Modelled from the spec: one separable-kernel weight at integer offset `d`
from the kernel centre for width `sigma`.  The spec delegates the exact
Gaussian weights to the tensor runtime and notes the original "does not pin
this down precisely enough to be bit-exact"; a computable positive rational
bell-shaped surrogate is used, no claim depends on the weight values. -/
def kernelWeight (sigma : Rat) (d : Int) : Rat :=
  1 / (1 + (d * d : Int) / (2 * sigma * sigma + 1))

/-- Read a channel pixel with replicate-border clamping of the indices. -/
def chanGetClamped (ch : Chan) (i j : Int) : Rat :=
  let H := ch.length
  let W := (ch.head?.getD []).length
  let ci := (max 0 (min (H - 1 : Int) i)).toNat
  let cj := (max 0 (min (W - 1 : Int) j)).toNat
  (ch.getD ci []).getD cj 0

/-- Separable convolution of one channel with the size-`k` kernel, replicate
border, output the same H × W as the input. -/
def blurChan (k : Nat) (sigma : Rat) (ch : Chan) : Chan :=
  let H := ch.length
  let W := (ch.head?.getD []).length
  let c : Int := (k / 2 : Nat)
  let wsum := ((List.range k).map fun d => kernelWeight sigma (d - c)).sum
  let norm := wsum * wsum
  (List.range H).map fun i => (List.range W).map fun j =>
    (((List.range k).map fun dk =>
      ((List.range k).map fun dl =>
        kernelWeight sigma (dk - c) * kernelWeight sigma (dl - c) *
          chanGetClamped ch (i + dk - c) (j + dl - c)).sum).sum) / norm

/-- Gaussian blur of a frame: every channel convolved with the same kernel. -/
def blurFrame (k : Nat) (sigma : Rat) (f : Frame) : Frame :=
  f.map (blurChan k sigma)

/-- A rectangular hole: top, left, height, width. -/
abbrev Hole := Nat × Nat × Nat × Nat

/-- Whether pixel (i, j) lies inside the hole. -/
def inHole (h : Hole) (i j : Nat) : Prop :=
  h.1 ≤ i ∧ i < h.1 + h.2.2.1 ∧ h.2.1 ≤ j ∧ j < h.2.1 + h.2.2.2

instance (h : Hole) (i j : Nat) : Decidable (inHole h i j) := by
  unfold inHole; infer_instance

/-- Sample `n` random holes inside an H × W area. -/
def genHoles (g : Rng) (H W : Nat) : Nat → List Hole
  | 0 => []
  | n + 1 =>
      let (r1, g1) := g.next
      let (r2, g2) := g1.next
      let (r3, g3) := g2.next
      let (r4, g4) := g3.next
      (r1 % (H + 1), r2 % (W + 1), 1 + r3 % (H + 1), 1 + r4 % (W + 1)) ::
        genHoles g4 H W n

/-- Coarse dropout on one frame: samples a hole count in
[lo, hi] and zeroes the sampled rectangular regions in every channel. -/
def dropoutFrame (g : Rng) (lo hi : Nat) (f : Frame) : Frame :=
  let H := (f.head?.getD []).length
  let W := ((f.head?.getD []).head?.getD []).length
  let n := lo + g.next.1 % (hi - lo + 1)
  let holes := genHoles g.next.2 H W n
  f.map fun ch => ch.mapIdx fun i row => row.mapIdx fun j x =>
    if holes.any fun h => decide (inHole h i j) then 0 else x

/-! ## Batch-level transforms (Frame batch → Frame batch)

Each registered transform is frame-wise: the same operation mapped over the N
frames of the flattened batch (coarse dropout draws an independent generator
per frame, per the spec "for each frame independently"). -/

/-- Crop every frame of a batch at the same offset. -/
def cropB (top left h w : Nat) : FrameBatch → FrameBatch :=
  List.map (cropFrame top left h w)

/-- Flip every frame of a batch in the same direction. -/
def flipB (horizontal : Bool) : FrameBatch → FrameBatch :=
  List.map (flipFrame horizontal)

/-- Pad every frame of a batch. -/
def padB (ph pw : Nat) : FrameBatch → FrameBatch :=
  List.map (padFrame ph pw)

/-- Brightness on every frame of a batch. -/
def brightnessB (amount : Rat) : FrameBatch → FrameBatch :=
  List.map (brightnessFrame amount)

/-- Contrast on every frame of a batch. -/
def contrastB (amount : Rat) : FrameBatch → FrameBatch :=
  List.map (contrastFrame amount)

/-- Saturation on every frame of a batch. -/
def saturationB (amount : Rat) : FrameBatch → FrameBatch :=
  List.map (saturationFrame amount)

/-- Color adjustment on every frame of a batch. -/
def colorAdjustB (red green blue : Rat) : FrameBatch → FrameBatch :=
  List.map (colorAdjustFrame red green blue)

/-- Gaussian blur on every frame of a batch, same kernel for every frame. -/
def blurB (k : Nat) (sigma : Rat) : FrameBatch → FrameBatch :=
  List.map (blurFrame k sigma)

/-- Coarse dropout on every frame of a batch, the generator advanced for
each frame so the holes are sampled independently per frame. -/
def dropoutB (g : Rng) (lo hi : Nat) : FrameBatch → FrameBatch
  | [] => []
  | f :: rest => dropoutFrame g lo hi f :: dropoutB g.next.2 lo hi rest

/-! ## Public transforms (video tensor → video tensor)

Modelled from the spec: every public transform flattens the video tensor to a
Frame batch, applies the frame-wise operation, and restores the original rank
with `restore` using the captured shape. -/

/-- Flatten, apply a batch transform, restore. -/
def liftT (phi : FrameBatch → FrameBatch) (v : Video) : Except String Video :=
  restore (phi (flatten v).1) (flatten v).2

/-- Height and width of a video tensor, from its shape. -/
def Video.spatial (v : Video) : Nat × Nat :=
  match v.shape with
  | .s4 _ _ H W => (H, W)
  | .s5 _ _ _ H W => (H, W)

/-- Modelled from the spec: `crop` — `random` draws a uniformly sampled
top-left offset once and applies the same offset to every frame; `center`
uses the deterministic centred offset; an invalid `type` raises a ValueError
with the message pinned by `test_crop_invalid_type`. -/
def crop (g : Rng) (v : Video) (type : String) (size : Nat × Nat) :
    Except String Video :=
  if type = "random" then
    liftT (cropB (g.next.1 % (v.spatial.1 - size.1 + 1))
                 (g.next.2.next.1 % (v.spatial.2 - size.2 + 1))
                 size.1 size.2) v
  else if type = "center" then
    liftT (cropB ((v.spatial.1 - size.1) / 2) ((v.spatial.2 - size.2) / 2)
                 size.1 size.2) v
  else
    .error "crop type must be 'random' or 'center'"

/-- Modelled from the spec: `flip` — mirrors every frame along the width
(horizontal) or height (vertical) axis; invalid `type` raises a ValueError
with the message pinned by `test_flip_invalid_type`. -/
def flip (v : Video) (type : String) : Except String Video :=
  if type = "horizontal" then liftT (flipB true) v
  else if type = "vertical" then liftT (flipB false) v
  else .error "flip type must be 'horizontal' or 'vertical'"

/-- Parse a non-empty string of decimal digits to a number. -/
def parseDigits (cs : List Char) : Option Nat :=
  if cs = [] then none
  else cs.foldl (fun acc c => acc.bind fun n =>
    if '0' ≤ c ∧ c ≤ '9' then some (n * 10 + (c.toNat - 48)) else none)
    (some 0)

/-- Parse a percentage string such as "10%" to the integer percentage;
malformed input raises a ValueError. -/
def parsePercent (s : String) : Except String Nat :=
  if s.toList.getLast? = some '%' then
    match parseDigits s.toList.dropLast with
    | some n => .ok n
    | none => .error "pad proportion must be a percentage string"
  else .error "pad proportion must be a percentage string"

/-- Modelled from the spec: `pad` — "adds symmetric padding to H and W equal
to proportion × current size" and "increases output spatial size"; the
row/column count is proportion × current size rounded up to the next
integer, so any positive proportion on a nonempty image pads by at least
one row and column (zero-fill). -/
def pad (v : Video) (proportion : String) : Except String Video :=
  match parsePercent proportion with
  | .error e => .error e
  | .ok p =>
      liftT (padB ((v.spatial.1 * p + 99) / 100)
                  ((v.spatial.2 * p + 99) / 100)) v

/-- Public brightness transform. -/
def brightness (v : Video) (amount : Rat) : Except String Video :=
  liftT (brightnessB amount) v

/-- Public contrast transform. -/
def contrast (v : Video) (amount : Rat) : Except String Video :=
  liftT (contrastB amount) v

/-- Public saturation transform. -/
def saturation (v : Video) (amount : Rat) : Except String Video :=
  liftT (saturationB amount) v

/-- Public color adjustment transform. -/
def color_adjust (v : Video) (red green blue : Rat) : Except String Video :=
  liftT (colorAdjustB red green blue) v

/-- Public Gaussian blur transform (even kernel size raises a ValueError,
per the spec's failure column). -/
def gaussian_blur (v : Video) (kernel_size : Nat) (sigma : Rat) :
    Except String Video :=
  if kernel_size % 2 = 1 then liftT (blurB kernel_size sigma) v
  else .error "kernel_size must be odd"

/-- Public coarse dropout transform. -/
def coarse_dropout (g : Rng) (v : Video) (lo hi : Nat) :
    Except String Video :=
  liftT (dropoutB g lo hi) v

/-! ## The chain -/

/-- Parameter record for a transform spec; models the Python keyword-argument
mapping with one field per known keyword. -/
structure Params where
  type : String := ""
  size : Nat × Nat := (0, 0)
  proportion : String := ""
  amount : Rat := 0
  red : Rat := 1
  green : Rat := 1
  blue : Rat := 1
  kernel_size : Nat := 3
  sigma : Rat := 1
  number_holes_range : Nat × Nat := (0, 0)
deriving DecidableEq, Repr

/-- A transform spec: name and parameters; order in a chain matters. -/
abbrev TransformSpec := String × Params

/-- Modelled from the spec: the transform registry, "a fixed mapping from
name to transform implementation"; its name set. -/
def registryNames : List String :=
  ["crop", "flip", "pad", "brightness", "contrast", "saturation",
   "color_adjust", "gaussian_blur", "coarse_dropout"]

/-- Dispatch one registered transform by name. -/
def applyNamed (g : Rng) (nm : String) (p : Params) (v : Video) :
    Except String Video :=
  if nm = "crop" then crop g v p.type p.size
  else if nm = "flip" then flip v p.type
  else if nm = "pad" then pad v p.proportion
  else if nm = "brightness" then brightness v p.amount
  else if nm = "contrast" then contrast v p.amount
  else if nm = "saturation" then saturation v p.amount
  else if nm = "color_adjust" then color_adjust v p.red p.green p.blue
  else if nm = "gaussian_blur" then gaussian_blur v p.kernel_size p.sigma
  else if nm = "coarse_dropout" then
    coarse_dropout g v p.number_holes_range.1 p.number_holes_range.2
  else .error ("Unknown augmentation: " ++ nm)

/-- Apply the specs left to right, threading the running tensor and advancing
the random source once per step. -/
def runChain (g : Rng) (v : Video) : List TransformSpec → Except String Video
  | [] => .ok v
  | (nm, p) :: rest =>
      match applyNamed g nm p v with
      | .error e => .error e
      | .ok v' => runChain g.next.2 v' rest

/-- Modelled from the spec: `chain(video, transform_specs)` — "validates
before executing: every spec name must exist in the registry; on the first
unknown name, fails fast with ValueError naming the offending transform,
without partially mutating input"; the message is pinned by
`test_chain_invalid_augmentation`. -/
def chain (g : Rng) (v : Video) (specs : List TransformSpec) :
    Except String Video :=
  match specs.find? (fun s => !(decide (s.1 ∈ registryNames))) with
  | some s => .error ("Unknown augmentation: " ++ s.1)
  | none => runChain g v specs

/-! ## Metadata (ffprobe wrapper)

Modelled from the spec's "metadata/validation service" ("supplies pass/fail
booleans and structured error records per file") and the behaviour pinned by
`tests/test_metadata.py`; the module `vid_prepper/metadata.py` itself is not
in the source tree. -/

/-- One stream record of the parsed ffprobe JSON; fields the validation
checks read (`codec_type`, `width`, `height`), absent keys modelled as 0. -/
structure MediaStream where
  codec_type : String := ""
  width : Nat := 0
  height : Nat := 0
deriving DecidableEq, Repr

/-- The parsed ffprobe JSON: stream list and the format duration in seconds
(string-to-number parsing delegated to the JSON layer), absent modelled as
`none`. -/
structure MetaJSON where
  streams : List MediaStream := []
  duration : Option Rat := none
deriving DecidableEq, Repr

/-- A structured validation error record, as exported per file. -/
structure ErrorRecord where
  file : String
  check : String
  message : String
deriving DecidableEq, Repr

/-- Modelled from the spec: the `Metadata` wrapper state — the probed file
path, the parsed ffprobe output once `run()` has stored it, and the
accumulated validation error records. -/
structure Metadata where
  file_path : String
  _metadata : Option MetaJSON
  errors : List ErrorRecord
deriving DecidableEq, Repr

/-- Freshly constructed wrapper: nothing probed yet, no errors. -/
def Metadata.init (fp : String) : Metadata := ⟨fp, none, []⟩

/-- The MetadataError message raised when the metadata property is read
before `run()`, pinned by `test_metadata_property_not_run`. -/
def notRunMsg : String := "FFProbe has not been run yet. Call run() first."

/-- The `metadata` property: the parsed output, or a MetadataError (modelled
as the error branch) when `run()` has not been called. -/
def Metadata.metadata (md : Metadata) : Except String MetaJSON :=
  match md._metadata with
  | some m => .ok m
  | none => .error notRunMsg

/-- Append one structured error record for a failed check. -/
def Metadata.addError (md : Metadata) (check msg : String) : Metadata :=
  { md with errors := md.errors ++ [⟨md.file_path, check, msg⟩] }

/-- Whether the parsed metadata contains a video stream. -/
def MetaJSON.hasVideo (m : MetaJSON) : Bool :=
  m.streams.any fun s => s.codec_type == "video"

/-- The first video stream, if any. -/
def MetaJSON.videoStream (m : MetaJSON) : Option MediaStream :=
  m.streams.find? fun s => s.codec_type == "video"

/-- Validation check: a video stream must be present; on failure returns
`false` and records a `missing_video` error.  Reading the metadata of an
un-run wrapper is the MetadataError branch. -/
def Metadata.filter_missing_video (md : Metadata) :
    Except String (Bool × Metadata) :=
  match md._metadata with
  | none => .error notRunMsg
  | some m =>
      if m.hasVideo then .ok (true, md)
      else .ok (false, md.addError "missing_video" "No video stream found")

/-- Whether the video stream's resolution meets the minimum. -/
def MetaJSON.resolutionOk (minW minH : Nat) (m : MetaJSON) : Bool :=
  match m.videoStream with
  | some s => decide (minW ≤ s.width ∧ minH ≤ s.height)
  | none => false

/-- Validation check: the video stream's resolution must be at least
`minW × minH` (the Python default thresholds are left as parameters); on
failure records a `resolution` error. -/
def Metadata.filter_resolution (md : Metadata) (minW minH : Nat) :
    Except String (Bool × Metadata) :=
  match md._metadata with
  | none => .error notRunMsg
  | some m =>
      if m.resolutionOk minW minH then .ok (true, md)
      else .ok (false, md.addError "resolution" "Resolution below minimum")

/-- Whether the container duration meets the minimum. -/
def MetaJSON.durationOk (minD : Rat) (m : MetaJSON) : Bool :=
  decide (minD ≤ m.duration.getD 0)

/-- Validation check: the duration must be at least `minD` seconds (default
threshold left as a parameter); on failure records a `duration` error. -/
def Metadata.filter_duration (md : Metadata) (minD : Rat) :
    Except String (Bool × Metadata) :=
  match md._metadata with
  | none => .error notRunMsg
  | some m =>
      if m.durationOk minD then .ok (true, md)
      else .ok (false, md.addError "duration" "Duration below minimum")

/-! ## Concrete inputs used to exercise the definitions -/

/-- Channel counts of a frame batch: the per-frame number of channels. -/
def channelCounts (fb : FrameBatch) : List Nat := fb.map List.length

/-- A 1-channel 2×2 frame. -/
def exFrame1 : Frame := [[[0, 1], [2, 3]]]

/-- A 1-channel 2×2 frame. -/
def exFrame2 : Frame := [[[4, 5], [6, 7]]]

/-- A 1-channel 2×2 frame. -/
def exFrame3 : Frame := [[[8, 9], [10, 11]]]

/-- A 1-channel 2×2 frame. -/
def exFrame4 : Frame := [[[12, 13], [14, 15]]]

/-- A rank-4 video tensor: T=2, C=1, H=2, W=2. -/
def exVideo4 : Video := .v4 [exFrame1, exFrame2]

/-- A rank-5 video tensor: B=2, T=2, C=1, H=2, W=2. -/
def exVideo5 : Video := .v5 [[exFrame1, exFrame2], [exFrame3, exFrame4]]

/-- A rank-4 video tensor with small spatial size: T=1, C=1, H=5, W=5. -/
def tinyVideo : Video :=
  .v4 [[List.replicate 5 (List.replicate 5 (0 : Rat))]]

/-- A chain whose second spec has a name missing from the registry, as in
`test_chain_invalid_augmentation` (the unknown name deliberately not the
first spec). -/
def exSpecs : List TransformSpec :=
  [("flip", { type := "horizontal" }), ("nonexistent", {})]

/-- Parsed ffprobe output that passes all checks (a video stream at
1920×1080 and 10.5 s duration, as in the tests). -/
def mjGood : MetaJSON :=
  ⟨[⟨"video", 1920, 1080⟩, ⟨"audio", 0, 0⟩], some ⟨21, 2, by decide, by decide⟩⟩

/-- Parsed ffprobe output that fails all checks (only an audio stream,
0.5 s duration). -/
def mjBad : MetaJSON := ⟨[⟨"audio", 0, 0⟩], some ⟨1, 2, by decide, by decide⟩⟩

/-- Metadata wrapper loaded with `mjGood`. -/
def mdGood : Metadata := ⟨"test_video.mp4", some mjGood, []⟩

/-- Metadata wrapper loaded with `mjBad`. -/
def mdBad : Metadata := ⟨"test_video.mp4", some mjBad, []⟩

/-! ## Helper lemmas -/

/-- The flattened length of a list of uniform-length lists. -/
theorem length_flatten_uniform {α : Type} (L : List (List α)) (T : Nat)
    (h : ∀ l ∈ L, l.length = T) : L.flatten.length = L.length * T := by
  induction L with
  | nil => simp
  | cons l rest ih =>
      simp only [List.flatten_cons, List.length_append, List.length_cons]
      rw [h l (by simp), ih (fun x hx => h x (by simp [hx]))]
      ring

/-- Chunking inverts flattening for uniform-length lists. -/
theorem chunksB_flatten {α : Type} (L : List (List α)) (T : Nat)
    (h : ∀ l ∈ L, l.length = T) : chunksB L.length T L.flatten = L := by
  induction L with
  | nil => rfl
  | cons l rest ih =>
      have hl : l.length = T := h l (by simp)
      have hrest := ih (fun x hx => h x (by simp [hx]))
      simp only [List.length_cons, List.flatten_cons, chunksB]
      rw [← hl, List.take_left, List.drop_left, hl, hrest]

/-- Chunking commutes with mapping. -/
theorem chunksB_map {α β : Type} (f : α → β) (B : Nat) :
    ∀ (T : Nat) (l : List α),
      chunksB B T (l.map f) = (chunksB B T l).map (List.map f) := by
  induction B with
  | zero => intro T l; rfl
  | succ b ih =>
      intro T l
      simp only [chunksB, List.map_cons]
      rw [← List.map_take, ← List.map_drop, ih]

/-- Binding an `ok` value applies the continuation. -/
theorem exceptBind_ok {ε α β : Type} (a : α) (f : α → Except ε β) :
    (Except.ok a).bind f = f a := rfl

/-- `restore` inverts `flatten` on valid tensors. -/
theorem restore_flatten_ok (t : Video) (ht : t.valid) :
    restore (flatten t).1 (flatten t).2 = .ok t := by
  cases t with
  | v4 fs => simp [flatten, restore, Video.shape]
  | v5 vids =>
      have huni : ∀ l ∈ vids, l.length = (vids.head?.getD []).length :=
        fun l hl => (ht l hl).1
      simp only [flatten, restore, Video.shape]
      rw [length_flatten_uniform vids _ huni, if_pos rfl,
        chunksB_flatten vids _ huni]

/-- Horizontal frame flipping is an involution. -/
theorem flipFrame_horizontal_invol (f : Frame) :
    flipFrame true (flipFrame true f) = f := by
  simp [flipFrame, List.map_map, Function.comp_def]

/-- A frame-wise map through flatten/restore on a rank-4 tensor maps every
frame in place. -/
theorem liftT_map_v4 (phi : Frame → Frame) (fs : List Frame) :
    liftT (List.map phi) (.v4 fs) = .ok (.v4 (fs.map phi)) := by
  simp [liftT, flatten, restore, Video.shape]

/-- A frame-wise map through flatten/restore on a valid rank-5 tensor maps
every frame of every video in place. -/
theorem liftT_map_v5 (phi : Frame → Frame) (vids : List (List Frame))
    (huni : ∀ l ∈ vids, l.length = (vids.head?.getD []).length) :
    liftT (List.map phi) (.v5 vids) =
      .ok (.v5 (vids.map (List.map phi))) := by
  simp only [liftT, flatten, Video.shape, restore]
  rw [List.length_map, length_flatten_uniform vids _ huni, if_pos rfl,
    chunksB_map, chunksB_flatten vids _ huni]

/-- Applying a frame-wise involution twice through flatten/restore is the
identity on valid tensors. -/
theorem liftT_map_bind_invol (phi : Frame → Frame)
    (hphi : ∀ f, phi (phi f) = f) (t : Video) (ht : t.valid) :
    (liftT (List.map phi) t).bind
      (fun y => liftT (List.map phi) y) = .ok t := by
  have hmapmap : ∀ (fs : List Frame), (fs.map phi).map phi = fs := by
    intro fs
    rw [List.map_map]
    calc fs.map (phi ∘ phi) = fs.map id := List.map_congr_left fun x _ => hphi x
      _ = fs := List.map_id fs
  cases t with
  | v4 fs =>
      rw [liftT_map_v4, exceptBind_ok, liftT_map_v4, hmapmap]
  | v5 vids =>
      have huni : ∀ l ∈ vids, l.length = (vids.head?.getD []).length :=
        fun l hl => (ht l hl).1
      have hhead : ((vids.map (List.map phi)).head?.getD []).length =
          (vids.head?.getD []).length := by
        cases vids with
        | nil => rfl
        | cons v rest => simp [List.head?]
      have huni2 : ∀ l ∈ vids.map (List.map phi),
          l.length = ((vids.map (List.map phi)).head?.getD []).length := by
        intro l hl
        rw [hhead]
        obtain ⟨l0, hl0, rfl⟩ := List.mem_map.mp hl
        rw [List.length_map]
        exact huni l0 hl0
      rw [liftT_map_v5 phi vids huni, exceptBind_ok,
        liftT_map_v5 phi _ huni2, List.map_map]
      have : vids.map (List.map phi ∘ List.map phi) = vids.map id :=
        List.map_congr_left fun l _ => by
          simp only [Function.comp_apply]
          exact hmapmap l
      rw [this, List.map_id]

/-- When some spec name is missing from the registry, the chain's validation
scan finds the first such spec: the specs before it all have registered
names, and the scan returns it. -/
theorem find?_first_unknown (specs : List TransformSpec) :
    (∃ s ∈ specs, s.1 ∉ registryNames) →
    ∃ s₀ pre suf, specs = pre ++ s₀ :: suf ∧
      (∀ s ∈ pre, s.1 ∈ registryNames) ∧ s₀.1 ∉ registryNames ∧
      specs.find? (fun s => !(decide (s.1 ∈ registryNames))) = some s₀ := by
  induction specs with
  | nil => intro h; obtain ⟨s, hs, _⟩ := h; simp at hs
  | cons a rest ih =>
      intro h
      by_cases ha : a.1 ∈ registryNames
      · have hr : ∃ s ∈ rest, s.1 ∉ registryNames := by
          obtain ⟨s, hs, hns⟩ := h
          rcases List.mem_cons.mp hs with rfl | hmem
          · exact absurd ha hns
          · exact ⟨s, hmem, hns⟩
        obtain ⟨s₀, pre, suf, hsp, hpre, hns, hfind⟩ := ih hr
        refine ⟨s₀, a :: pre, suf, by rw [hsp]; rfl, ?_, hns, ?_⟩
        · intro s hs
          rcases List.mem_cons.mp hs with rfl | hmem
          · exact ha
          · exact hpre s hmem
        · rw [List.find?_cons_of_neg _ (by simp [ha])]
          exact hfind
      · exact ⟨a, [], rest, rfl, by simp, ha,
          List.find?_cons_of_pos _ (by simp [ha])⟩

/-! ## Claim theorems -/

/-- C1: when a transform-spec list contains a name not in the registry,
`chain` fails with a ValueError naming the first offending transform, before
any transform is applied — the result is the same error for every input
tensor and every random state (so the caller gets no partially transformed
tensor and the input is observably unchanged), even when the unknown name is
not the first spec. -/
theorem chain_unknown_fails_fast (specs : List TransformSpec)
    (h : ∃ s ∈ specs, s.1 ∉ registryNames) :
    ∃ s₀ pre suf, specs = pre ++ s₀ :: suf ∧
      (∀ s ∈ pre, s.1 ∈ registryNames) ∧ s₀.1 ∉ registryNames ∧
      specs.find? (fun s => !(decide (s.1 ∈ registryNames))) = some s₀ ∧
      ∀ (g : Rng) (v : Video),
        chain g v specs = .error ("Unknown augmentation: " ++ s₀.1) := by
  obtain ⟨s₀, pre, suf, hsp, hpre, hns, hfind⟩ := find?_first_unknown specs h
  refine ⟨s₀, pre, suf, hsp, hpre, hns, hfind, ?_⟩
  intro g v
  simp only [chain, hfind]

/-- C1 witness: `exSpecs` puts the unknown name second; the chain fails with
the error naming it, at a concrete tensor and random state. -/
theorem chain_unknown_fails_fast_w :
    chain ⟨0⟩ exVideo4 exSpecs =
      .error ("Unknown augmentation: " ++ "nonexistent") := by
  obtain ⟨s₀, pre, suf, hsp, hpre, hns, hfind, hchain⟩ :=
    chain_unknown_fails_fast exSpecs (by decide)
  have h2 : exSpecs.find? (fun s => !(decide (s.1 ∈ registryNames))) =
      some ("nonexistent", ({} : Params)) := by decide
  have hs0 : s₀ = ("nonexistent", ({} : Params)) := by
    rw [hfind] at h2
    exact Option.some.inj h2
  rw [hs0] at hchain
  exact hchain ⟨0⟩ exVideo4

/-- C2: for every valid video tensor of rank 4 or 5, restoring the flattened
frame batch with the captured original shape returns the original tensor:
`restore(flatten(t)) == t` when no transform is applied in between. -/
theorem restore_flatten_identity (t : Video) (h : t.valid) :
    restore (flatten t).1 (flatten t).2 = .ok t :=
  restore_flatten_ok t h

/-- C2 witness: the round trip at a concrete valid rank-5 tensor. -/
theorem restore_flatten_identity_w :
    Video.valid exVideo5 ∧
      restore (flatten exVideo5).1 (flatten exVideo5).2 = .ok exVideo5 :=
  ⟨by decide, restore_flatten_identity exVideo5 (by decide)⟩

/-- C3: `flatten` on a rank-4 tensor (T,C,H,W) returns a frame batch with
leading dimension N = T, and on a rank-5 tensor (B,T,C,H,W) one with
N = B·T, together with the original shape, from which the B,T split is
restorable; every frame carries C, H, W through unchanged. -/
theorem flatten_frame_count (t : Video) (ht : t.valid) :
    (∀ T C H W, t.shape = .s4 T C H W →
        (flatten t).1.length = T ∧ (flatten t).2 = t.shape ∧
        ∀ f ∈ (flatten t).1, Frame.hasDims C H W f) ∧
    (∀ B T C H W, t.shape = .s5 B T C H W →
        (flatten t).1.length = B * T ∧ (flatten t).2 = t.shape ∧
        restore (flatten t).1 (flatten t).2 = .ok t ∧
        ∀ f ∈ (flatten t).1, Frame.hasDims C H W f) := by
  constructor
  · intro T C H W hsh
    cases t with
    | v4 fs =>
        simp only [Video.shape] at hsh
        cases hsh
        exact ⟨rfl, rfl, ht⟩
    | v5 vids =>
        simp only [Video.shape] at hsh
        cases hsh
  · intro B T C H W hsh
    cases t with
    | v4 fs =>
        simp only [Video.shape] at hsh
        cases hsh
    | v5 vids =>
        simp only [Video.shape] at hsh
        cases hsh
        have huni : ∀ l ∈ vids, l.length = (vids.head?.getD []).length :=
          fun l hl => (ht l hl).1
        refine ⟨length_flatten_uniform vids _ huni, rfl,
          restore_flatten_ok _ ht, ?_⟩
        intro f hf
        obtain ⟨l, hl, hfl⟩ := List.mem_flatten.mp hf
        exact (ht l hl).2 f hfl

/-- C3 witness: at the concrete rank-5 tensor, N = B·T = 2·2 frames, the
shape is captured, and the B,T split is restored from it. -/
theorem flatten_frame_count_w :
    (flatten exVideo5).1.length = 2 * 2 ∧
      (flatten exVideo5).2 = exVideo5.shape ∧
      restore (flatten exVideo5).1 (flatten exVideo5).2 = .ok exVideo5 := by
  obtain ⟨-, h5⟩ := flatten_frame_count exVideo5 (by decide)
  obtain ⟨hN, hsh, hres, -⟩ := h5 2 2 1 2 2 (by decide)
  exact ⟨hN, hsh, hres⟩

/-- C6: calling `crop` with a type outside {random, center} fails with a
ValueError whose message mentions both allowed values (exhibited by the
literal decomposition of the message around "random" and "center"). -/
theorem crop_invalid_type (ty : String) (h1 : ty ≠ "random")
    (h2 : ty ≠ "center") (g : Rng) (v : Video) (size : Nat × Nat) :
    crop g v ty size =
      .error ("crop type must be '" ++ "random" ++ "' or '" ++
        "center" ++ "'") := by
  simp only [crop, if_neg h1, if_neg h2]
  rfl

/-- C6 witness: `type="bogus"` at a concrete tensor. -/
theorem crop_invalid_type_w :
    crop ⟨0⟩ exVideo4 "bogus" (10, 10) =
      .error ("crop type must be '" ++ "random" ++ "' or '" ++
        "center" ++ "'") :=
  crop_invalid_type "bogus" (by decide) (by decide) ⟨0⟩ exVideo4 (10, 10)

/-- C7: horizontal flip is an involution on every valid video tensor:
flipping twice returns the original tensor. -/
theorem flip_horizontal_involution (x : Video) (h : x.valid) :
    (flip x "horizontal").bind (fun y => flip y "horizontal") = .ok x :=
  liftT_map_bind_invol (flipFrame true) flipFrame_horizontal_invol x h

/-- C7 witness: the double flip at a concrete valid rank-5 tensor. -/
theorem flip_horizontal_involution_w :
    Video.valid exVideo5 ∧
      (flip exVideo5 "horizontal").bind (fun y => flip y "horizontal") =
        .ok exVideo5 :=
  ⟨by decide, flip_horizontal_involution exVideo5 (by decide)⟩

/-- C8: center crop is deterministic — the output does not depend on the
random-source state, so two calls with identical input and parameters return
identical results. -/
theorem crop_center_deterministic (g1 g2 : Rng) (v : Video)
    (size : Nat × Nat) :
    crop g1 v "center" size = crop g2 v "center" size := by
  unfold crop
  simp only [if_neg (show ¬ ("center" : String) = "random" by decide),
    if_pos (rfl : ("center" : String) = "center")]

/-- C9: a newly constructed Metadata has unset internal metadata and an
empty errors list, and reading the metadata property fails with a
MetadataError whose message contains "FFProbe has not been run yet". -/
theorem metadata_init_state (fp : String) :
    (Metadata.init fp)._metadata = none ∧ (Metadata.init fp).errors = [] ∧
      (Metadata.init fp).metadata =
        .error ("FFProbe has not been run yet" ++ ". Call run() first.") :=
  ⟨rfl, rfl, rfl⟩

/-- A frame-wise map preserves the per-frame channel counts whenever the
frame operation preserves the channel-list length. -/
theorem channelCounts_map (phi : Frame → Frame)
    (hphi : ∀ f, (phi f).length = f.length) (fb : FrameBatch) :
    channelCounts (fb.map phi) = channelCounts fb := by
  simp only [channelCounts, List.map_map]
  exact List.map_congr_left fun f _ => by
    simp only [Function.comp_apply, hphi f]

/-- Coarse dropout does not change a frame's channel count. -/
theorem dropoutFrame_length (g : Rng) (lo hi : Nat) (f : Frame) :
    (dropoutFrame g lo hi f).length = f.length := by
  simp [dropoutFrame]

/-- Coarse dropout does not change the frame count of a batch. -/
theorem dropoutB_length (lo hi : Nat) (g : Rng) (fb : FrameBatch) :
    (dropoutB g lo hi fb).length = fb.length := by
  induction fb generalizing g with
  | nil => rfl
  | cons f rest ih => simp [dropoutB, ih]

/-- Coarse dropout does not change the per-frame channel counts of a
batch. -/
theorem dropoutB_channelCounts (lo hi : Nat) (g : Rng) (fb : FrameBatch) :
    channelCounts (dropoutB g lo hi fb) = channelCounts fb := by
  induction fb generalizing g with
  | nil => rfl
  | cons f rest ih =>
      simp only [dropoutB, channelCounts, List.map_cons]
      rw [dropoutFrame_length]
      exact congrArg (List.cons f.length) (ih g.next.2)

/-- C4: every registered transform of the catalog, applied at the frame-batch
level with any parameters, preserves the frame count N and the per-frame
channel counts C of the batch. -/
theorem transforms_preserve_N_and_C (fb : FrameBatch)
    (top left h w ph pw ks lo hi : Nat) (g : Rng)
    (bamt camt samt red green blue sigma : Rat) :
    ((cropB top left h w fb).length = fb.length ∧
      channelCounts (cropB top left h w fb) = channelCounts fb) ∧
    ((flipB true fb).length = fb.length ∧
      channelCounts (flipB true fb) = channelCounts fb) ∧
    ((flipB false fb).length = fb.length ∧
      channelCounts (flipB false fb) = channelCounts fb) ∧
    ((padB ph pw fb).length = fb.length ∧
      channelCounts (padB ph pw fb) = channelCounts fb) ∧
    ((brightnessB bamt fb).length = fb.length ∧
      channelCounts (brightnessB bamt fb) = channelCounts fb) ∧
    ((contrastB camt fb).length = fb.length ∧
      channelCounts (contrastB camt fb) = channelCounts fb) ∧
    ((saturationB samt fb).length = fb.length ∧
      channelCounts (saturationB samt fb) = channelCounts fb) ∧
    ((colorAdjustB red green blue fb).length = fb.length ∧
      channelCounts (colorAdjustB red green blue fb) = channelCounts fb) ∧
    ((blurB ks sigma fb).length = fb.length ∧
      channelCounts (blurB ks sigma fb) = channelCounts fb) ∧
    ((dropoutB g lo hi fb).length = fb.length ∧
      channelCounts (dropoutB g lo hi fb) = channelCounts fb) := by
  refine ⟨⟨by simp [cropB], channelCounts_map _ (fun f => by simp [cropFrame]) fb⟩,
    ⟨by simp [flipB], channelCounts_map _ (fun f => by simp [flipFrame]) fb⟩,
    ⟨by simp [flipB], channelCounts_map _ (fun f => by simp [flipFrame]) fb⟩,
    ⟨by simp [padB], channelCounts_map _ (fun f => by simp [padFrame]) fb⟩,
    ⟨by simp [brightnessB],
      channelCounts_map _ (fun f => by simp [brightnessFrame]) fb⟩,
    ⟨by simp [contrastB],
      channelCounts_map _ (fun f => by simp [contrastFrame]) fb⟩,
    ⟨by simp [saturationB],
      channelCounts_map _ (fun f => by simp [saturationFrame]) fb⟩,
    ⟨by simp [colorAdjustB],
      channelCounts_map _ (fun f => by simp [colorAdjustFrame]) fb⟩,
    ⟨by simp [blurB], channelCounts_map _ (fun f => by simp [blurFrame]) fb⟩,
    dropoutB_length lo hi g fb, dropoutB_channelCounts lo hi g fb⟩

/-- Padding a channel adds `ph` rows at the top and bottom. -/
theorem padChan_length (ph pw : Nat) (ch : Chan) :
    (padChan ph pw ch).length = ch.length + 2 * ph := by
  simp [padChan]
  omega

/-- With at least one padding row, the first row of a padded channel is the
zero row, `pw` wider on each side than the original first row. -/
theorem padChan_head_length (ph pw : Nat) (hph : 1 ≤ ph) (ch : Chan) :
    ((padChan ph pw ch).head?.getD []).length =
      (ch.head?.getD []).length + 2 * pw := by
  obtain ⟨k, rfl⟩ : ∃ k, ph = k + 1 := ⟨ph - 1, by omega⟩
  simp [padChan, List.replicate_succ]

/-- Dimension bookkeeping of `padFrame` mapped over a frame list: frame
count and channel count are unchanged, H grows by `2·ph`, W by `2·pw`. -/
theorem padB_frames_dims (ph pw : Nat) (hph : 1 ≤ ph) (fs : List Frame)
    (hH : 1 ≤ framesH fs) :
    (fs.map (padFrame ph pw)).length = fs.length ∧
    framesC (fs.map (padFrame ph pw)) = framesC fs ∧
    framesH (fs.map (padFrame ph pw)) = framesH fs + 2 * ph ∧
    framesW (fs.map (padFrame ph pw)) = framesW fs + 2 * pw := by
  cases fs with
  | nil => simp [framesH] at hH
  | cons f₀ fs' =>
      cases f₀ with
      | nil => simp [framesH] at hH
      | cons ch₀ chs =>
          refine ⟨by simp, ?_, ?_, ?_⟩
          · simp [framesC, padFrame]
          · simp only [framesH, List.map_cons, List.head?_cons,
              Option.getD_some, padFrame]
            rw [padChan_length]
          · simp only [framesW, List.map_cons, List.head?_cons,
              Option.getD_some, padFrame]
            rw [padChan_head_length ph pw hph]

/-- C5: for every valid video tensor with nonempty spatial dimensions
(H, W ≥ 1), `pad` with proportion "10%" returns a tensor whose H and W are
strictly greater than the input's, while the leading dimensions (T, or B
and T) and the channel count C are unchanged. -/
theorem pad_ten_percent_increases (v : Video) (hv : v.valid) :
    (∀ T C H W, v.shape = .s4 T C H W → 1 ≤ H → 1 ≤ W →
        ∃ w, pad v "10%" = .ok w ∧
          w.shape = .s4 T C (H + 2 * ((H * 10 + 99) / 100))
            (W + 2 * ((W * 10 + 99) / 100)) ∧
          H < H + 2 * ((H * 10 + 99) / 100) ∧
          W < W + 2 * ((W * 10 + 99) / 100)) ∧
    (∀ B T C H W, v.shape = .s5 B T C H W → 1 ≤ H → 1 ≤ W →
        ∃ w, pad v "10%" = .ok w ∧
          w.shape = .s5 B T C (H + 2 * ((H * 10 + 99) / 100))
            (W + 2 * ((W * 10 + 99) / 100)) ∧
          H < H + 2 * ((H * 10 + 99) / 100) ∧
          W < W + 2 * ((W * 10 + 99) / 100)) := by
  have hp : parsePercent "10%" = Except.ok 10 := by decide
  constructor
  · intro T C H W hsh h1 h2
    cases v with
    | v5 vids => simp only [Video.shape] at hsh; cases hsh
    | v4 fs =>
        simp only [Video.shape] at hsh
        cases hsh
        have hph : 1 ≤ (framesH fs * 10 + 99) / 100 := by omega
        obtain ⟨e1, e2, e3, e4⟩ :=
          padB_frames_dims ((framesH fs * 10 + 99) / 100)
            ((framesW fs * 10 + 99) / 100) hph fs h1
        refine ⟨.v4 (fs.map (padFrame ((framesH fs * 10 + 99) / 100)
          ((framesW fs * 10 + 99) / 100))), ?_, ?_, by omega, by omega⟩
        · simp only [pad, hp, Video.spatial, Video.shape, padB]
          exact liftT_map_v4 _ fs
        · simp only [Video.shape]
          rw [e1, e2, e3, e4]
  · intro B T C H W hsh h1 h2
    cases v with
    | v4 fs => simp only [Video.shape] at hsh; cases hsh
    | v5 vids =>
        simp only [Video.shape] at hsh
        cases hsh
        have huni : ∀ l ∈ vids, l.length = (vids.head?.getD []).length :=
          fun l hl => (hv l hl).1
        cases vids with
        | nil => simp [framesH] at h1
        | cons vs₀ vids' =>
            have hph : 1 ≤
                (framesH ((vs₀ :: vids').head?.getD []) * 10 + 99) / 100 := by
              omega
            obtain ⟨e1, e2, e3, e4⟩ :=
              padB_frames_dims
                ((framesH ((vs₀ :: vids').head?.getD []) * 10 + 99) / 100)
                ((framesW ((vs₀ :: vids').head?.getD []) * 10 + 99) / 100)
                hph vs₀ (by simpa using h1)
            refine ⟨.v5 ((vs₀ :: vids').map (List.map (padFrame
              ((framesH ((vs₀ :: vids').head?.getD []) * 10 + 99) / 100)
              ((framesW ((vs₀ :: vids').head?.getD []) * 10 + 99) / 100)))),
              ?_, ?_, by omega, by omega⟩
            · simp only [pad, hp, Video.spatial, Video.shape, padB]
              exact liftT_map_v5 _ _ huni
            · simp only [Video.shape, List.map_cons, List.head?_cons,
                Option.getD_some, List.length_cons, List.length_map]
              simp only [List.head?_cons, Option.getD_some] at e2 e3 e4 ⊢
              rw [e2, e3, e4]

/-- C5 witness: at the valid 1×1×5×5 tensor (10% of 5 rounds up to 1 row
and column per side) the padded output has shape 1×1×7×7 — H and W
strictly increased, T and C unchanged. -/
theorem pad_ten_percent_increases_w :
    (pad tinyVideo "10%").map Video.shape = .ok (.s4 1 1 7 7) := by
  obtain ⟨w, hw, hsh, -, -⟩ :=
    (pad_ten_percent_increases tinyVideo (by decide)).1 1 1 5 5 (by decide)
      (by decide) (by decide)
  rw [hw]
  simp only [Except.map]
  rw [hsh]

/-- C10: on a Metadata object with loaded metadata, each of the three
validation checks returns True and leaves the errors list unchanged when the
check passes, and returns False and appends exactly one error record naming
the failed check ("missing_video", "resolution", "duration") when it
fails. -/
theorem metadata_filter_checks (md : Metadata) (m : MetaJSON)
    (hmd : md._metadata = some m) (minW minH : Nat) (minD : Rat) :
    (m.hasVideo = true → md.filter_missing_video = .ok (true, md)) ∧
    (m.hasVideo = false → md.filter_missing_video =
      .ok (false, { md with errors := md.errors ++
        [⟨md.file_path, "missing_video", "No video stream found"⟩] })) ∧
    (m.resolutionOk minW minH = true →
      md.filter_resolution minW minH = .ok (true, md)) ∧
    (m.resolutionOk minW minH = false →
      md.filter_resolution minW minH = .ok (false, { md with errors :=
        md.errors ++
          [⟨md.file_path, "resolution", "Resolution below minimum"⟩] })) ∧
    (m.durationOk minD = true → md.filter_duration minD = .ok (true, md)) ∧
    (m.durationOk minD = false → md.filter_duration minD =
      .ok (false, { md with errors := md.errors ++
        [⟨md.file_path, "duration", "Duration below minimum"⟩] })) := by
  refine ⟨fun h => ?_, fun h => ?_, fun h => ?_, fun h => ?_,
    fun h => ?_, fun h => ?_⟩ <;>
    simp [Metadata.filter_missing_video, Metadata.filter_resolution,
      Metadata.filter_duration, Metadata.addError, hmd, h]

/-- C10 witness: the wrapper loaded with a 1920×1080 video stream of 10.5 s
passes all three checks with no error recorded; the wrapper loaded with only
an audio stream of 0.5 s fails all three, each appending exactly one record
naming the check. -/
theorem metadata_filter_checks_w :
    mdGood.filter_missing_video = .ok (true, mdGood) ∧
    mdGood.filter_resolution 640 360 = .ok (true, mdGood) ∧
    mdGood.filter_duration 1 = .ok (true, mdGood) ∧
    mdBad.filter_missing_video = .ok (false, { mdBad with errors :=
      [⟨"test_video.mp4", "missing_video", "No video stream found"⟩] }) ∧
    mdBad.filter_resolution 640 360 = .ok (false, { mdBad with errors :=
      [⟨"test_video.mp4", "resolution", "Resolution below minimum"⟩] }) ∧
    mdBad.filter_duration 1 = .ok (false, { mdBad with errors :=
      [⟨"test_video.mp4", "duration", "Duration below minimum"⟩] }) := by
  obtain ⟨g1, -, g3, -, g5, -⟩ :=
    metadata_filter_checks mdGood mjGood rfl 640 360 1
  obtain ⟨-, b2, -, b4, -, b6⟩ :=
    metadata_filter_checks mdBad mjBad rfl 640 360 1
  exact ⟨g1 (by decide), g3 (by decide), g5 (by decide),
    b2 (by decide), b4 (by decide), b6 (by decide)⟩

end VidPrepper
